import Mathlib

/-! Verification of the "Sabor & Arte" order-taking backend.

Shallow embedding of the core of the repository (two Express entry points,
`src/index.js` and the unnamed second server file): the credential gateway
(`requireAuth`), the order submission handlers (`POST /api/pedidos`,
`POST /api/finalizar`), the order history reader (`GET /api/pedidos`),
the registration flow (`POST /api/auth/register`) and the menu reader
(`GET /api/menu`).

External collaborators are modelled as parameters:
* the auth service (`supabase.auth.getUser`) is a function
  `getUser : String → Option String` from token to resolved user id;
* the row store (`supabase.from(...).insert/select`) is an explicit list of
  rows threaded through the handlers; the store's filter/sort primitives
  (`.eq`, `.order`) are embedded as list filter/sort;
* the JavaScript builtins `JSON.stringify` / `JSON.parse`, applied by the
  handlers to the cart line array, are embedded as a concrete
  serializer/parser pair over the cart-line grammar the app stores
  (`serializeItems` / `parseItems`); numbers are decimal literals
  (integer mantissa and fraction-digit count), the form JSON can carry.

Handlers additionally return the number of calls made to the auth service
and to the store, so that "no call is made" claims are statable.
-/

/-! ## JavaScript string split

`String.prototype.split(' ')` with a single-character separator: splits on
every occurrence, keeping empty segments, and yields `[""]` on the empty
string. -/

def splitSp : List Char → List (List Char)
  | [] => [[]]
  | c :: cs =>
    if c = ' ' then [] :: splitSp cs
    else
      match splitSp cs with
      | [] => [[c]]
      | g :: gs => (c :: g) :: gs

/-! ## Credential gateway (`requireAuth`, src/index.js lines 27-40)

```js
const authHeader = req.headers['authorization'];
const token = authHeader && authHeader.split(' ')[1];
if (!token) return res.status(401).json({ error: 'Acesso negado.' });
const { data: userAuth, error } = await supabase.auth.getUser(token);
if (error || !userAuth.user) return res.status(401).json({ error: 'Token inválido.' });
req.userId = userAuth.user.id;
```
-/

/-- The token the gateway extracts from the `Authorization` header:
the second space-separated segment, when it is non-empty.  A missing
header, a falsy (empty) header, an absent second segment and an empty
second segment all yield `none` (JS `!token`). -/
def extractToken (authHeader : Option String) : Option String :=
  match authHeader with
  | none => none
  | some h =>
    match (splitSp h.toList).get? 1 with
    | none => none
    | some t => if t = [] then none else some (String.mk t)

/-- Outcome of the gateway: either a 401 denial with a message, or the
resolved user id attached to the request. -/
inductive AuthOutcome where
  | denied (status : Nat) (msg : String)
  | granted (userId : String)
deriving DecidableEq, Repr

/-- `requireAuth`, instrumented with the number of calls made to the auth
service (`supabase.auth.getUser`).  `getUser` models the auth service:
`some uid` when the token resolves to a user, `none` on error / no user. -/
def requireAuth (getUser : String → Option String) (authHeader : Option String) :
    AuthOutcome × Nat :=
  match extractToken authHeader with
  | none => (.denied 401 "Acesso negado.", 0)
  | some t =>
    match getUser t with
    | none => (.denied 401 "Token inválido.", 1)
    | some uid => (.granted uid, 1)

/-! ## JSON numbers and cart lines

A JSON number as carried through `JSON.stringify` / `JSON.parse`: a decimal
literal with integer mantissa `m` and `e` fraction digits (value
`m / 10^e`); `e = 0` prints with no decimal point. -/

structure JsNum where
  m : Int
  e : Nat
deriving DecidableEq, Repr

/-- A cart line, the element shape of the `items` array the client submits
and the app serializes into the `items_json` column (spec §3: `{ item_id,
quantity, unit_price }`); all three fields are JSON numbers. -/
structure CartLine where
  item_id : JsNum
  quantity : JsNum
  unit_price : JsNum
deriving DecidableEq, Repr

/-! ### Printing numbers -/

/-- One decimal digit to its character. -/
def digitToChar : Nat → Char
  | 0 => '0' | 1 => '1' | 2 => '2' | 3 => '3' | 4 => '4'
  | 5 => '5' | 6 => '6' | 7 => '7' | 8 => '8' | _ => '9'

/-- Little-endian decimal digits of a natural number, with explicit fuel so
the definition is structurally recursive (and kernel-evaluable). -/
def natDigitsRev : Nat → Nat → List Nat
  | 0, _ => []
  | fuel + 1, n => if n = 0 then [] else n % 10 :: natDigitsRev fuel (n / 10)

/-- Big-endian decimal digit characters of a natural number (`"0"` for 0). -/
def natToChars (n : Nat) : List Char :=
  if n = 0 then ['0'] else ((natDigitsRev n n).reverse.map digitToChar)

/-- Left-pad a digit string with `'0'` to length at least `k`. -/
def zeroPad (k : Nat) (l : List Char) : List Char :=
  List.replicate (k - l.length) '0' ++ l

/-- Digit characters of magnitude `a` with `e` fraction digits: for
`e = 0` just the integer digits, otherwise the padded digit string with a
decimal point `e` digits from the right. -/
def decimalChars (e a : Nat) : List Char :=
  if e = 0 then natToChars a
  else
    (zeroPad (e + 1) (natToChars a)).take
        ((zeroPad (e + 1) (natToChars a)).length - e) ++
      '.' :: (zeroPad (e + 1) (natToChars a)).drop
        ((zeroPad (e + 1) (natToChars a)).length - e)

/-- Characters `JSON.stringify` produces for a number: optional sign, the
integer digits, and — when there are fraction digits — a decimal point
with exactly `e` digits after it. -/
def numToChars (x : JsNum) : List Char :=
  (if x.m < 0 then ['-'] else []) ++ decimalChars x.e x.m.natAbs

/-! ### Reading numbers -/

/-- Consume leading decimal digits, big-endian accumulating their value;
returns (value, number of digits consumed, rest). -/
def readDigits : Nat → Nat → List Char → Nat × Nat × List Char
  | acc, cnt, [] => (acc, cnt, [])
  | acc, cnt, c :: cs =>
    if c.isDigit then readDigits (10 * acc + (c.toNat - 48)) (cnt + 1) cs
    else (acc, cnt, c :: cs)

/-- Value a digit run accumulates, starting from `acc`. -/
def chVal (acc : Nat) (ds : List Char) : Nat :=
  ds.foldl (fun a c => 10 * a + (c.toNat - 48)) acc

/-- Reattach a sign read from a leading `'-'`. -/
def applySign (neg : Bool) (n : Nat) : Int :=
  if neg then -(n : Int) else (n : Int)

/-- After the integer digits (value `i`): an optional fraction part, read
as (value, digit count, rest) by `readDigits`. -/
def parseAfterInt (neg : Bool) (i : Nat) (cs₂ : List Char) :
    Option (JsNum × List Char) :=
  match cs₂ with
  | '.' :: cs₃ =>
    if (readDigits 0 0 cs₃).2.1 = 0 then none
    else
      some (⟨applySign neg (i * 10 ^ (readDigits 0 0 cs₃).2.1 +
               (readDigits 0 0 cs₃).1),
             (readDigits 0 0 cs₃).2.1⟩,
            (readDigits 0 0 cs₃).2.2)
  | _ => some (⟨applySign neg i, 0⟩, cs₂)

/-- The unsigned part of a number: integer digits (at least one), then an
optional fraction. -/
def parseNumCore (neg : Bool) (cs₁ : List Char) : Option (JsNum × List Char) :=
  if (readDigits 0 0 cs₁).2.1 = 0 then none
  else parseAfterInt neg (readDigits 0 0 cs₁).1 (readDigits 0 0 cs₁).2.2

/-- Parse one JSON number (sign, integer digits, optional fraction digits);
`none` if no digits are present where required. -/
def parseNum (cs : List Char) : Option (JsNum × List Char) :=
  match cs with
  | '-' :: cs' => parseNumCore true cs'
  | _ => parseNumCore false cs

/-! ### Printing and reading cart lines

`JSON.stringify` of `[{item_id:…,quantity:…,unit_price:…}, …]`, with the
exact punctuation the builtin emits (no whitespace), and the inverse
parser.  A literal `{` / `}` appears below as the characters following
the key strings. -/

/-- The characters between `{` and the first number. -/
def litItem : List Char :=
  ['{', '"', 'i', 't', 'e', 'm', '_', 'i', 'd', '"', ':']

/-- The characters between the first number and the second. -/
def litQty : List Char :=
  [',', '"', 'q', 'u', 'a', 'n', 't', 'i', 't', 'y', '"', ':']

/-- The characters between the second number and the third. -/
def litPrice : List Char :=
  [',', '"', 'u', 'n', 'i', 't', '_', 'p', 'r', 'i', 'c', 'e', '"', ':']

/-- Characters of one serialized cart line. -/
def cartLineChars (l : CartLine) : List Char :=
  litItem ++ numToChars l.item_id ++
  litQty ++ numToChars l.quantity ++
  litPrice ++ numToChars l.unit_price ++ ['}']

/-- Characters of the serialized cart-line array after the opening `[`:
lines separated by commas, closed by `]`. -/
def itemsTail : List CartLine → List Char
  | [] => [']']
  | [l] => cartLineChars l ++ [']']
  | l :: l' :: ls => cartLineChars l ++ ',' :: itemsTail (l' :: ls)

/-- `JSON.stringify(items)` for the cart-line array. -/
def serializeItems (S : List CartLine) : String :=
  String.mk ('[' :: itemsTail S)

/-- Expect an exact literal character sequence; return the rest. -/
def expectLit : List Char → List Char → Option (List Char)
  | [], cs => some cs
  | _ :: _, [] => none
  | l :: ls, c :: cs => if c = l then expectLit ls cs else none

/-- Parse one serialized cart line. -/
def parseCartLine (cs : List Char) : Option (CartLine × List Char) := do
  let cs ← expectLit litItem cs
  let (a, cs) ← parseNum cs
  let cs ← expectLit litQty cs
  let (q, cs) ← parseNum cs
  let cs ← expectLit litPrice cs
  let (p, cs) ← parseNum cs
  let cs ← expectLit ['}'] cs
  some (⟨a, q, p⟩, cs)

/-- Parse a non-empty comma-separated cart-line sequence up to the closing
`]`; `fuel` bounds the number of lines. -/
def parseLines : Nat → List Char → Option (List CartLine × List Char)
  | 0, _ => none
  | fuel + 1, cs => do
    let (l, cs') ← parseCartLine cs
    match cs' with
    | ',' :: cs'' => do
      let (ls, r) ← parseLines fuel cs''
      some (l :: ls, r)
    | ']' :: cs'' => some ([l], cs'')
    | _ => none

/-- Parse a serialized cart-line array. -/
def parseArr (cs : List Char) : Option (List CartLine × List Char) :=
  match cs with
  | '[' :: ']' :: rest => some ([], rest)
  | '[' :: cs' => parseLines cs'.length cs'
  | _ => none

/-- `JSON.parse` on the `items_json` column: succeeds exactly on a full
serialized cart-line array, `none` (the builtin throws a `SyntaxError`)
otherwise. -/
def parseItems (s : String) : Option (List CartLine) :=
  match parseArr s.toList with
  | some (S, []) => some S
  | _ => none

/-! ## Store rows and request bodies

The row store is threaded explicitly; `freshId` and `now` stand for the
store-generated row id and `created_at` timestamp.  A single-row insert is
modelled as an always-succeeding append (the 500 `PersistenceError` path of
the source is a store-failure branch none of the checked claims touch). -/

/-- A row of the `pedidos` table.  `details_json` is set by the
`src/index.js` handler and absent (`none`) for rows written by the second
entry point's handler. -/
structure Pedido where
  id : Nat
  user_id : String
  items_json : String
  total : JsNum
  status : String
  details_json : Option String
  created_at : Nat
deriving DecidableEq, Repr

/-- The client's `details` value: a JSON object (objects are always truthy
in JS, even when empty). -/
structure DetailsObj where
  fields : List (String × String)
deriving DecidableEq, Repr

/-- `JSON.stringify(details)` (string-field objects; content opaque to
every claim). -/
def serializeDetails (d : DetailsObj) : String :=
  "\x7b" ++
    String.intercalate ","
      (d.fields.map (fun kv => "\"" ++ kv.1 ++ "\":\"" ++ kv.2 ++ "\"")) ++
    "\x7d"

/-- Body of `POST /api/pedidos`.  `none` models an absent (or `null`, hence
falsy) field.  `user_id` is a client-supplied field the handler never
reads: the source destructures only `items`, `total`, `details`. -/
structure PedidosBody where
  items : Option (List CartLine)
  total : Option JsNum
  details : Option DetailsObj
  user_id : Option String
deriving DecidableEq, Repr

/-- Result of a write handler. -/
structure WriteResult where
  status : Nat
  store : List Pedido
  storeCalls : Nat
deriving DecidableEq, Repr

/-! ## `POST /api/pedidos` (src/index.js lines 158-183)

```js
const { items, total, details } = req.body;
if (!items || !total || !details)
  return res.status(400).json({ error: "Dados incompletos ..." });
await supabase.from("pedidos").insert([{ user_id: req.userId,
  items_json: JSON.stringify(items), total, status: "Pendente",
  details_json: JSON.stringify(details) }])
```

JS truthiness of the destructured fields: an absent/`null` field is falsy;
a number is falsy exactly when it is `0`; an array or object is truthy
even when empty — so `items: []` passes the `!items` guard. -/

def postPedidos (uid : String) (body : PedidosBody) (store : List Pedido)
    (freshId now : Nat) : WriteResult :=
  match body.items, body.total, body.details with
  | some items, some total, some details =>
    if total.m = 0 then ⟨400, store, 0⟩
    else
      ⟨201,
       store ++ [⟨freshId, uid, serializeItems items, total, "Pendente",
                 some (serializeDetails details), now⟩],
       1⟩
  | _, _, _ => ⟨400, store, 0⟩

/-- The second entry point's `POST /api/pedidos` (src/unnamed/part_000
lines 189-215): same handler without the `details` field
(`if (!items || !total)`), inserting no `details_json`. -/
def postPedidosAlt (uid : String) (body : PedidosBody) (store : List Pedido)
    (freshId now : Nat) : WriteResult :=
  match body.items, body.total with
  | some items, some total =>
    if total.m = 0 then ⟨400, store, 0⟩
    else
      ⟨201,
       store ++ [⟨freshId, uid, serializeItems items, total, "Pendente",
                 none, now⟩],
       1⟩
  | _, _ => ⟨400, store, 0⟩

/-! ## `POST /api/finalizar` (src/index.js lines 187-217) -/

/-- Body of `POST /api/finalizar`; again `user_id` is client-supplied and
never read by the handler. -/
structure FinalizarBody where
  nome : Option String
  telefone : Option String
  endereco : Option String
  pagamento : Option String
  observacoes : Option String
  itens : Option (List CartLine)
  total : Option JsNum
  user_id : Option String
deriving DecidableEq, Repr

/-- A row of the `pedidos_finalizados` table. -/
structure PedidoFinalizado where
  id : Nat
  user_id : String
  nome : String
  telefone : String
  endereco : String
  pagamento : String
  observacoes : Option String
  itens_json : String
  total : JsNum
  created_at : Nat
deriving DecidableEq, Repr

/-- Result of the finalizar handler. -/
structure FinalizarResult where
  status : Nat
  store : List PedidoFinalizado
  storeCalls : Nat
deriving DecidableEq, Repr

/-- `if (!nome || !telefone || !endereco || !pagamento || !itens || !total)`:
strings are falsy when absent or empty, the cart array is falsy only when
absent, the total when absent or `0`; `observacoes` is not validated. -/
def postFinalizar (uid : String) (body : FinalizarBody)
    (store : List PedidoFinalizado) (freshId now : Nat) : FinalizarResult :=
  match body.nome, body.telefone, body.endereco, body.pagamento,
        body.itens, body.total with
  | some nome, some telefone, some endereco, some pagamento,
    some itens, some total =>
    if nome = "" ∨ telefone = "" ∨ endereco = "" ∨ pagamento = "" ∨
        total.m = 0 then
      ⟨400, store, 0⟩
    else
      ⟨201,
       store ++ [⟨freshId, uid, nome, telefone, endereco, pagamento,
                 body.observacoes, serializeItems itens, total, now⟩],
       1⟩
  | _, _, _, _, _, _ => ⟨400, store, 0⟩

/-! ## `GET /api/pedidos` (src/unnamed/part_000 lines 218-240)

```js
const { data: pedidos } = await supabase.from('pedidos')
  .select('id, total, status, created_at, items_json')
  .eq('user_id', userId)
  .order('created_at', { ascending: false });
const pedidosFormatados = pedidos.map(p => ({ ...p,
  items: JSON.parse(p.items_json) }));
```
-/

/-- The projection the route selects, plus the deserialized `items`
(`user_id` is not among the selected columns). -/
structure PedidoView where
  id : Nat
  total : JsNum
  status : String
  created_at : Nat
  items_json : String
  items : List CartLine
deriving DecidableEq, Repr

/-- The selected columns of a row together with parsed items. -/
def selectView (p : Pedido) (items : List CartLine) : PedidoView :=
  ⟨p.id, p.total, p.status, p.created_at, p.items_json, items⟩

/-- `created_at` descending, the order the route requests from the store. -/
def createdDesc (a b : Pedido) : Prop := b.created_at ≤ a.created_at

instance : DecidableRel createdDesc := fun a b =>
  Nat.decLe b.created_at a.created_at

instance : IsTotal Pedido createdDesc :=
  ⟨fun a b => Nat.le_total b.created_at a.created_at⟩

instance : IsTrans Pedido createdDesc :=
  ⟨fun _ _ _ hab hbc => Nat.le_trans hbc hab⟩

/-- The store query: rows with `user_id` equal to the caller, sorted by
`created_at` descending (ties resolved by the store, here stably). -/
def pedidosQuery (store : List Pedido) (uid : String) : List Pedido :=
  List.insertionSort createdDesc (store.filter (fun p => p.user_id = uid))

/-- The `.map` over rows: `JSON.parse` each `items_json`; the first throw
aborts the whole map (and with it the request). -/
def formatPedidos : List Pedido → Except String (List PedidoView)
  | [] => .ok []
  | p :: ps =>
    match parseItems p.items_json with
    | none => .error "SyntaxError: Unexpected token in JSON"
    | some items =>
      match formatPedidos ps with
      | .error e => .error e
      | .ok vs => .ok (selectView p items :: vs)

/-- The order-history read for an authenticated caller: `.error` when some
row of the caller fails to deserialize (the thrown `SyntaxError` aborts
the request — no partial list is produced). -/
def getPedidos (uid : String) (store : List Pedido) :
    Except String (List PedidoView) :=
  formatPedidos (pedidosQuery store uid)

/-! ## Endpoint wrappers: gateway + handler with call counters -/

/-- Observable trace of one request to a protected endpoint: response
status, number of auth-service calls, number of store calls. -/
structure EndpointTrace where
  status : Nat
  authCalls : Nat
  storeCalls : Nat
deriving DecidableEq, Repr

/-- `POST /api/pedidos` behind `requireAuth`. -/
def pedidosEndpoint (getUser : String → Option String)
    (authHeader : Option String) (body : PedidosBody) (store : List Pedido)
    (freshId now : Nat) : EndpointTrace × List Pedido :=
  match requireAuth getUser authHeader with
  | (.denied s _, n) => (⟨s, n, 0⟩, store)
  | (.granted uid, n) =>
    let r := postPedidos uid body store freshId now
    (⟨r.status, n, r.storeCalls⟩, r.store)

/-- `POST /api/finalizar` behind `requireAuth`. -/
def finalizarEndpoint (getUser : String → Option String)
    (authHeader : Option String) (body : FinalizarBody)
    (store : List PedidoFinalizado) (freshId now : Nat) :
    EndpointTrace × List PedidoFinalizado :=
  match requireAuth getUser authHeader with
  | (.denied s _, n) => (⟨s, n, 0⟩, store)
  | (.granted uid, n) =>
    let r := postFinalizar uid body store freshId now
    (⟨r.status, n, r.storeCalls⟩, r.store)

/-- `GET /api/pedidos` behind `requireAuth`.  On a deserialization throw
the request aborts; the trace records the aborted request (the one select
already happened), and no order list is produced. -/
def historyEndpoint (getUser : String → Option String)
    (authHeader : Option String) (store : List Pedido) :
    EndpointTrace × Option (Except String (List PedidoView)) :=
  match requireAuth getUser authHeader with
  | (.denied s _, n) => (⟨s, n, 0⟩, none)
  | (.granted uid, n) =>
    match getPedidos uid store with
    | .ok vs => (⟨200, n, 1⟩, some (.ok vs))
    | .error e => (⟨500, n, 1⟩, some (.error e))

/-! ## Registration flow (`POST /api/auth/register`, src/index.js 47-110)

The auth-service call outcomes are passed in as parameters: `signUp` is
the result of `supabase.auth.signUp`, `profileInsertFails` whether the
`perfis` insert errors, `signInTok` the token `signInWithPassword`
returns (when it succeeds). -/

/-- Outcome of `supabase.auth.signUp`: a new identity, or an upstream
error carrying a message. -/
inductive SignUpRes where
  | ok (uid : String)
  | err (msg : String)
deriving DecidableEq, Repr

/-- A row of the `perfis` table. -/
structure Profile where
  id : String
  nome : String
  email : String
deriving DecidableEq, Repr

/-- Observable result of the registration flow: HTTP status, the `error`
body field when present, the issued token when present, and the `perfis`
table after the request. -/
structure RegisterResult where
  status : Nat
  errorMsg : Option String
  token : Option String
  profiles : List Profile
deriving DecidableEq, Repr

/-- Leading-match check: does `cs` start with `needle`? -/
def leadMatch : List Char → List Char → Bool
  | [], _ => true
  | _ :: _, [] => false
  | n :: ns, c :: cs => c = n && leadMatch ns cs

/-- Substring occurrence scan over the haystack. -/
def hasSub (needle : List Char) : List Char → Bool
  | [] => needle.isEmpty
  | c :: cs => leadMatch needle (c :: cs) || hasSub needle cs

/-- `hay.includes(needle)`, the JS `String.prototype.includes`. -/
def strContains (hay needle : String) : Bool :=
  hasSub needle.toList hay.toList

/-- The registration flow of `src/index.js`.

* missing/falsy `email`, `password` or `nome` ⇒ 400, no calls made;
* `signUp` error ⇒ thrown and caught (lines 92-109): messages containing
  "Unable to validate email address" or "invalid format" are replaced by
  fixed Portuguese messages, an empty message by a default (JS
  `error.message || ...`), anything else is passed through; nothing is
  persisted;
* profile-insert failure ⇒ 500, distinct message, no token, row not
  persisted (the insert failed);
* sign-in failure ⇒ 500, distinct message, account and profile persisted;
* otherwise 201 with the session token. -/
def registerFlow (signUp : SignUpRes) (profileInsertFails : Bool)
    (signInTok : Option String) (email password nome : Option String)
    (profiles : List Profile) : RegisterResult :=
  match email, password, nome with
  | some email, some password, some nome =>
    if email = "" ∨ password = "" ∨ nome = "" then
      ⟨400, some "Campos obrigatórios faltando.", none, profiles⟩
    else
      match signUp with
      | .err msg =>
        if strContains msg "Unable to validate email address" then
          ⟨400,
           some "O e-mail informado é inválido. Verifique se está no formato correto.",
           none, profiles⟩
        else if strContains msg "invalid format" then
          ⟨400, some "Formato de e-mail inválido.", none, profiles⟩
        else
          ⟨400,
           some (if msg = "" then "Erro no processo de cadastro." else msg),
           none, profiles⟩
      | .ok uid =>
        if profileInsertFails then
          ⟨500, some "Usuário criado, mas falha ao salvar perfil.", none,
           profiles⟩
        else
          match signInTok with
          | none =>
            ⟨500, some "Usuário criado, mas falha ao gerar token.", none,
             profiles ++ [⟨uid, nome, email⟩]⟩
          | some tok =>
            ⟨201, none, some tok, profiles ++ [⟨uid, nome, email⟩]⟩
  | _, _, _ => ⟨400, some "Campos obrigatórios faltando.", none, profiles⟩

/-! ## Menu reader (`GET /api/menu`, src/index.js lines 135-155)

```js
const { data: menu } = await supabase.from("menu").select("*")
  .order("category").order("id");
const agrupado = menu.reduce((acc, item) => {
  const cat = item.category || "Outros";
  if (!acc[cat]) acc[cat] = [];
  acc[cat].push(item);
  return acc;
}, {});
```
-/

/-- A row of the `menu` table (`category` is nullable). -/
structure MenuItem where
  id : Nat
  name : String
  category : Option String
deriving DecidableEq, Repr

/-- The store's `order("category").order("id")` comparison: category
ascending with `null` last (the PostgREST ascending default), then id
ascending. -/
def menuLeB (a b : MenuItem) : Bool :=
  match a.category, b.category with
  | none, none => a.id ≤ b.id
  | none, some _ => false
  | some _, none => true
  | some ca, some cb => if ca = cb then a.id ≤ b.id else decide (ca < cb)

/-- The sorted row list the store returns. -/
def sortMenu (menu : List MenuItem) : List MenuItem :=
  List.insertionSort (fun a b => menuLeB a b = true) menu

/-- One `reduce` step: append the item to its category's bucket, creating
the bucket at the end on first sight (JS object key insertion order). -/
def addToGroup : List (String × List MenuItem) → String → MenuItem →
    List (String × List MenuItem)
  | [], cat, it => [(cat, [it])]
  | (c, l) :: rest, cat, it =>
    if c = cat then (c, l ++ [it]) :: rest
    else (c, l) :: addToGroup rest cat it

/-- The grouping `reduce`, over the rows in store order; a missing
category falls to the sentinel `"Outros"` (JS `item.category || "Outros"`,
which also catches an empty-string category as falsy). -/
def groupMenu (rows : List MenuItem) : List (String × List MenuItem) :=
  rows.foldl
    (fun acc it =>
      addToGroup acc
        (match it.category with
         | some c => if c = "" then "Outros" else c
         | none => "Outros")
        it)
    []

/-- The whole `GET /api/menu` response: fetch sorted, then group. -/
def menuEndpoint (menu : List MenuItem) : List (String × List MenuItem) :=
  groupMenu (sortMenu menu)

/-! ## Serialization round trip -/

theorem natDigitsRev_eq : ∀ fuel n, n ≤ fuel → natDigitsRev fuel n = Nat.digits 10 n := by
  intro fuel
  induction fuel with
  | zero => intro n hn; interval_cases n; simp [natDigitsRev]
  | succ f ih =>
    intro n hn
    by_cases h : n = 0
    · simp [natDigitsRev, h]
    · rw [natDigitsRev, if_neg h,
        Nat.digits_def' (by norm_num : 1 < 10) (Nat.pos_of_ne_zero h),
        ih (n / 10) (by omega)]

theorem digitToChar_isDigit (d : Nat) (hd : d < 10) :
    (digitToChar d).isDigit = true := by
  interval_cases d <;> decide

theorem toNat_digitToChar (d : Nat) (hd : d < 10) :
    (digitToChar d).toNat - 48 = d := by
  interval_cases d <;> decide

theorem natToChars_isDigit (n : Nat) : ∀ c ∈ natToChars n, c.isDigit = true := by
  intro c hc
  unfold natToChars at hc
  by_cases h : n = 0
  · simp [h] at hc; simp [hc]
  · rw [if_neg h, natDigitsRev_eq n n le_rfl] at hc
    simp only [List.mem_map, List.mem_reverse] at hc
    obtain ⟨d, hd, rfl⟩ := hc
    exact digitToChar_isDigit d (Nat.digits_lt_base (by norm_num) hd)

theorem natToChars_ne_nil (n : Nat) : natToChars n ≠ [] := by
  unfold natToChars
  by_cases h : n = 0
  · simp [h]
  · rw [if_neg h, natDigitsRev_eq n n le_rfl]
    simp [h, Nat.digits_ne_nil_iff_ne_zero]

theorem chVal_nil (acc : Nat) : chVal acc [] = acc := rfl

theorem chVal_cons (acc : Nat) (c : Char) (ds : List Char) :
    chVal acc (c :: ds) = chVal (10 * acc + (c.toNat - 48)) ds := rfl

theorem readDigits_append (ds : List Char) :
    ∀ (rest : List Char) (acc cnt : Nat),
      (∀ c ∈ ds, c.isDigit = true) →
      (∀ c, rest.head? = some c → c.isDigit = false) →
      readDigits acc cnt (ds ++ rest) = (chVal acc ds, cnt + ds.length, rest) := by
  induction ds with
  | nil =>
    intro rest acc cnt _ hrest
    cases rest with
    | nil => simp [readDigits, chVal_nil]
    | cons c cs =>
      have := hrest c rfl
      simp [readDigits, this, chVal_nil]
  | cons c ds ih =>
    intro rest acc cnt hds hrest
    have hc : c.isDigit = true := hds c (by simp)
    rw [List.cons_append, readDigits, if_pos hc,
      ih rest _ _ (fun d hd => hds d (by simp [hd])) hrest, chVal_cons]
    simp [Nat.add_comm, Nat.add_assoc, Nat.add_left_comm]

theorem chVal_shift (ds : List Char) :
    ∀ acc : Nat, chVal acc ds = acc * 10 ^ ds.length + chVal 0 ds := by
  induction ds with
  | nil => intro acc; simp [chVal_nil]
  | cons c ds ih =>
    intro acc
    rw [chVal_cons, ih, chVal_cons 0, ih (10 * 0 + (c.toNat - 48)),
      List.length_cons]
    ring

theorem chVal_append (A B : List Char) (acc : Nat) :
    chVal acc (A ++ B) = chVal acc A * 10 ^ B.length + chVal 0 B := by
  unfold chVal
  rw [List.foldl_append]
  exact chVal_shift B _

theorem chVal_map_digits (ds : List Nat) (hds : ∀ d ∈ ds, d < 10) :
    chVal 0 (ds.map digitToChar) = Nat.ofDigits 10 ds.reverse := by
  induction ds with
  | nil => simp [chVal_nil, Nat.ofDigits]
  | cons d ds ih =>
    rw [List.map_cons, chVal_cons, toNat_digitToChar d (hds d (by simp)),
      chVal_shift, List.reverse_cons, Nat.ofDigits_append,
      ih (fun x hx => hds x (by simp [hx]))]
    simp only [Nat.ofDigits_singleton, List.length_reverse, List.length_map]
    ring

theorem chVal_natToChars (n : Nat) : chVal 0 (natToChars n) = n := by
  unfold natToChars
  by_cases h : n = 0
  · simp [h]; decide
  · rw [if_neg h, natDigitsRev_eq n n le_rfl,
      chVal_map_digits _ (fun d hd =>
        Nat.digits_lt_base (by norm_num) (List.mem_reverse.mp hd)),
      List.reverse_reverse, Nat.ofDigits_digits]

theorem chVal_replicate_zero (j : Nat) : ∀ acc, chVal acc (List.replicate j '0') = acc * 10 ^ j := by
  induction j with
  | zero => intro acc; simp [chVal_nil]
  | succ k ih =>
    intro acc
    rw [List.replicate_succ, chVal_cons, ih]
    have : ('0'.toNat - 48) = 0 := by decide
    rw [this]
    ring

theorem chVal_zeroPad (k : Nat) (l : List Char) :
    chVal 0 (zeroPad k l) = chVal 0 l := by
  unfold zeroPad chVal
  rw [List.foldl_append]
  have := chVal_replicate_zero (k - l.length) 0
  unfold chVal at this
  rw [this]
  simp

theorem zeroPad_isDigit (k : Nat) (l : List Char)
    (hl : ∀ c ∈ l, c.isDigit = true) :
    ∀ c ∈ zeroPad k l, c.isDigit = true := by
  intro c hc
  unfold zeroPad at hc
  rcases List.mem_append.mp hc with h | h
  · have := List.eq_of_mem_replicate h
    subst this; decide
  · exact hl c h

theorem zeroPad_length (k : Nat) (l : List Char) :
    (zeroPad k l).length = max k l.length := by
  unfold zeroPad
  simp
  omega

theorem decimalChars_isDigit_or_dot (e a : Nat) :
    ∀ c ∈ decimalChars e a, c.isDigit = true ∨ c = '.' := by
  intro c hc
  unfold decimalChars at hc
  by_cases he : e = 0
  · rw [if_pos he] at hc
    exact Or.inl (natToChars_isDigit a c hc)
  · rw [if_neg he] at hc
    have hz := zeroPad_isDigit (e + 1) (natToChars a) (natToChars_isDigit a)
    rcases List.mem_append.mp hc with h | h
    · exact Or.inl (hz c (List.take_subset _ _ h))
    · rcases List.mem_cons.mp h with h | h
      · exact Or.inr h
      · exact Or.inl (hz c (List.drop_subset _ _ h))

theorem decimalChars_ne_nil (e a : Nat) : decimalChars e a ≠ [] := by
  unfold decimalChars
  by_cases he : e = 0
  · rw [if_pos he]; exact natToChars_ne_nil a
  · rw [if_neg he]
    intro h
    rcases List.append_eq_nil.mp h with ⟨-, h2⟩
    exact List.cons_ne_nil _ _ h2

theorem parseAfterInt_plain (neg : Bool) (i : Nat) (cs₂ : List Char)
    (h : cs₂.head? ≠ some '.') :
    parseAfterInt neg i cs₂ = some (⟨applySign neg i, 0⟩, cs₂) := by
  unfold parseAfterInt
  split
  · exact absurd rfl h
  · rfl

theorem parseNumCore_plain (neg : Bool) (A rest : List Char)
    (hA : ∀ c ∈ A, c.isDigit = true) (hAne : A ≠ [])
    (hdig : ∀ c, rest.head? = some c → c.isDigit = false)
    (hdot : rest.head? ≠ some '.') :
    parseNumCore neg (A ++ rest) = some (⟨applySign neg (chVal 0 A), 0⟩, rest) := by
  unfold parseNumCore
  rw [readDigits_append A rest 0 0 hA hdig]
  have hlen : ¬(0 + A.length = 0) := by
    simp [List.length_eq_zero]; exact hAne
  simp only [if_neg hlen]
  exact parseAfterInt_plain neg _ rest hdot

theorem parseNumCore_frac (neg : Bool) (A B rest : List Char)
    (hA : ∀ c ∈ A, c.isDigit = true) (hAne : A ≠ [])
    (hB : ∀ c ∈ B, c.isDigit = true) (hBne : B ≠ [])
    (hdig : ∀ c, rest.head? = some c → c.isDigit = false) :
    parseNumCore neg (A ++ '.' :: (B ++ rest)) =
      some (⟨applySign neg (chVal 0 A * 10 ^ B.length + chVal 0 B), B.length⟩,
            rest) := by
  unfold parseNumCore
  rw [readDigits_append A ('.' :: (B ++ rest)) 0 0 hA
    (by intro c hc; simp at hc; subst hc; decide)]
  have hlen : ¬(0 + A.length = 0) := by
    simp [List.length_eq_zero]; exact hAne
  simp only [if_neg hlen]
  unfold parseAfterInt
  split
  · rename_i cs₃ heq
    obtain rfl : B ++ rest = cs₃ := by injection heq
    rw [readDigits_append B rest 0 0 hB hdig]
    have hBlen : ¬(B.length = 0) := by
      simp [List.length_eq_zero]; exact hBne
    simp only [Nat.zero_add, if_neg hBlen]
  · rename_i hno
    exact absurd rfl (hno (B ++ rest))

theorem parseNumCore_decimal (neg : Bool) (e a : Nat) (rest : List Char)
    (hdig : ∀ c, rest.head? = some c → c.isDigit = false)
    (hdot : rest.head? ≠ some '.') :
    parseNumCore neg (decimalChars e a ++ rest) =
      some (⟨applySign neg a, e⟩, rest) := by
  by_cases he : e = 0
  · subst he
    unfold decimalChars
    rw [if_pos rfl,
      parseNumCore_plain neg _ rest (natToChars_isDigit a)
        (natToChars_ne_nil a) hdig hdot, chVal_natToChars]
  · unfold decimalChars
    rw [if_neg he]
    have hzd := zeroPad_isDigit (e + 1) (natToChars a) (natToChars_isDigit a)
    have hlen : e + 1 ≤ (zeroPad (e + 1) (natToChars a)).length := by
      rw [zeroPad_length]; omega
    have hA : ∀ c ∈ (zeroPad (e + 1) (natToChars a)).take
        ((zeroPad (e + 1) (natToChars a)).length - e), c.isDigit = true :=
      fun c hc => hzd c (List.take_subset _ _ hc)
    have hAne : (zeroPad (e + 1) (natToChars a)).take
        ((zeroPad (e + 1) (natToChars a)).length - e) ≠ [] := by
      apply List.ne_nil_of_length_pos
      rw [List.length_take]
      omega
    have hB : ∀ c ∈ (zeroPad (e + 1) (natToChars a)).drop
        ((zeroPad (e + 1) (natToChars a)).length - e), c.isDigit = true :=
      fun c hc => hzd c (List.drop_subset _ _ hc)
    have hBlen : ((zeroPad (e + 1) (natToChars a)).drop
        ((zeroPad (e + 1) (natToChars a)).length - e)).length = e := by
      rw [List.length_drop]; omega
    have hBne : (zeroPad (e + 1) (natToChars a)).drop
        ((zeroPad (e + 1) (natToChars a)).length - e) ≠ [] := by
      apply List.ne_nil_of_length_pos
      omega
    rw [List.append_assoc, List.cons_append,
      parseNumCore_frac neg _ _ rest hA hAne hB hBne hdig, hBlen]
    have hval : chVal 0 ((zeroPad (e + 1) (natToChars a)).take
          ((zeroPad (e + 1) (natToChars a)).length - e)) * 10 ^ e +
        chVal 0 ((zeroPad (e + 1) (natToChars a)).drop
          ((zeroPad (e + 1) (natToChars a)).length - e)) = a := by
      have h1 := chVal_append
        ((zeroPad (e + 1) (natToChars a)).take
          ((zeroPad (e + 1) (natToChars a)).length - e))
        ((zeroPad (e + 1) (natToChars a)).drop
          ((zeroPad (e + 1) (natToChars a)).length - e)) 0
      rw [List.take_append_drop, chVal_zeroPad, chVal_natToChars, hBlen] at h1
      omega
    rw [hval]

theorem decimalChars_cons (e a : Nat) :
    ∃ c cs, decimalChars e a = c :: cs ∧ c.isDigit = true := by
  by_cases he : e = 0
  · subst he
    cases h : natToChars a with
    | nil => exact absurd h (natToChars_ne_nil a)
    | cons c cs =>
      refine ⟨c, cs, by rw [decimalChars, if_pos rfl, h], ?_⟩
      exact natToChars_isDigit a c (by rw [h]; simp)
  · have hlen : e + 1 ≤ (zeroPad (e + 1) (natToChars a)).length := by
      rw [zeroPad_length]; omega
    cases h : (zeroPad (e + 1) (natToChars a)).take
        ((zeroPad (e + 1) (natToChars a)).length - e) with
    | nil =>
      exfalso
      have := congrArg List.length h
      rw [List.length_take] at this
      simp at this
      omega
    | cons c cs =>
      refine ⟨c, cs ++ '.' :: (zeroPad (e + 1) (natToChars a)).drop
        ((zeroPad (e + 1) (natToChars a)).length - e), ?_, ?_⟩
      · rw [decimalChars, if_neg he, h, List.cons_append]
      · exact zeroPad_isDigit (e + 1) (natToChars a) (natToChars_isDigit a) c
          (List.take_subset _ _ (by rw [h]; simp))

theorem applySign_natAbs (m : Int) : applySign (decide (m < 0)) m.natAbs = m := by
  by_cases hm : m < 0
  · rw [decide_eq_true hm]
    show (if (true : Bool) then -(m.natAbs : Int) else (m.natAbs : Int)) = m
    rw [if_pos rfl]
    omega
  · rw [decide_eq_false hm]
    show (if (false : Bool) then -(m.natAbs : Int) else (m.natAbs : Int)) = m
    rw [if_neg (by decide)]
    omega

theorem parseNum_rt (x : JsNum) (rest : List Char)
    (hdig : ∀ c, rest.head? = some c → c.isDigit = false)
    (hdot : rest.head? ≠ some '.') :
    parseNum (numToChars x ++ rest) = some (x, rest) := by
  unfold numToChars
  by_cases hm : x.m < 0
  · rw [if_pos hm, List.cons_append, List.nil_append]
    show parseNumCore true (decimalChars x.e x.m.natAbs ++ rest) = _
    rw [parseNumCore_decimal true x.e x.m.natAbs rest hdig hdot]
    have : applySign true x.m.natAbs = x.m := by
      have := applySign_natAbs x.m
      rwa [decide_eq_true hm] at this
    rw [this]
  · rw [if_neg hm, List.nil_append]
    obtain ⟨c, cs, hD, hcdig⟩ := decimalChars_cons x.e x.m.natAbs
    rw [hD, List.cons_append]
    unfold parseNum
    split
    · rename_i cs' heq
      have hc : c = '-' := by injection heq
      rw [hc] at hcdig
      exact absurd hcdig (by decide)
    · rw [← List.cons_append, ← hD,
        parseNumCore_decimal false x.e x.m.natAbs rest hdig hdot]
      have : applySign false x.m.natAbs = x.m := by
        have := applySign_natAbs x.m
        rwa [decide_eq_false hm] at this
      rw [this]

theorem expectLit_self : ∀ ls cs : List Char, expectLit ls (ls ++ cs) = some cs := by
  intro ls
  induction ls with
  | nil => intro cs; rfl
  | cons c ls ih => intro cs; simp [expectLit, ih]

theorem litQty_head (X : List Char) :
    ∀ c, (litQty ++ X).head? = some c → c.isDigit = false := by
  intro c hc
  have h : (litQty ++ X).head? = some ',' := rfl
  rw [h] at hc
  cases hc
  decide

theorem litQty_head_dot (X : List Char) : (litQty ++ X).head? ≠ some '.' := by
  intro hc
  have h : (litQty ++ X).head? = some ',' := rfl
  rw [h] at hc
  cases hc

theorem litPrice_head (X : List Char) :
    ∀ c, (litPrice ++ X).head? = some c → c.isDigit = false := by
  intro c hc
  have h : (litPrice ++ X).head? = some ',' := rfl
  rw [h] at hc
  cases hc
  decide

theorem litPrice_head_dot (X : List Char) : (litPrice ++ X).head? ≠ some '.' := by
  intro hc
  have h : (litPrice ++ X).head? = some ',' := rfl
  rw [h] at hc
  cases hc

theorem brace_head (X : List Char) :
    ∀ c, ('}' :: X).head? = some c → c.isDigit = false := by
  intro c hc
  cases hc
  decide

theorem brace_head_dot (X : List Char) : ('}' :: X).head? ≠ some '.' := by
  intro hc
  cases hc

theorem someBind {α β : Type u} (a : α) (f : α → Option β) :
    ((some a : Option α) >>= f) = f a := rfl

theorem expectLit_single (c : Char) (cs : List Char) :
    expectLit [c] (c :: cs) = some cs := by simp [expectLit]

theorem parseCartLine_rt (l : CartLine) (rest : List Char) :
    parseCartLine (cartLineChars l ++ rest) = some (l, rest) := by
  obtain ⟨a, q, p⟩ := l
  have hre : cartLineChars ⟨a, q, p⟩ ++ rest =
      litItem ++ (numToChars a ++ (litQty ++ (numToChars q ++
        (litPrice ++ (numToChars p ++ ('}' :: rest)))))) := by
    unfold cartLineChars
    simp [List.append_assoc]
  rw [hre]
  unfold parseCartLine
  rw [expectLit_self]
  simp only [someBind]
  rw [parseNum_rt a _ (litQty_head _) (litQty_head_dot _)]
  simp only [someBind]
  rw [expectLit_self]
  simp only [someBind]
  rw [parseNum_rt q _ (litPrice_head _) (litPrice_head_dot _)]
  simp only [someBind]
  rw [expectLit_self]
  simp only [someBind]
  rw [parseNum_rt p _ (brace_head _) (brace_head_dot _)]
  simp only [someBind]
  rw [expectLit_single]
  simp only [someBind]

theorem cartLineChars_cons (l : CartLine) : ∃ W, cartLineChars l = '{' :: W :=
  ⟨_, rfl⟩

theorem itemsTail_cons (l : CartLine) (S' : List CartLine) :
    ∃ W, itemsTail (l :: S') = '{' :: W := by
  obtain ⟨W0, hW0⟩ := cartLineChars_cons l
  cases S' with
  | nil => exact ⟨W0 ++ [']'], by simp [itemsTail, hW0]⟩
  | cons l' ls =>
    exact ⟨W0 ++ ',' :: itemsTail (l' :: ls), by simp [itemsTail, hW0]⟩

theorem itemsTail_length (S : List CartLine) :
    S.length + 1 ≤ (itemsTail S).length := by
  induction S with
  | nil => simp [itemsTail]
  | cons l S' ih =>
    obtain ⟨W, hW⟩ := cartLineChars_cons l
    cases S' with
    | nil =>
      simp [itemsTail, hW]
    | cons l' ls =>
      rw [itemsTail, hW]
      simp only [List.length_append, List.cons_append, List.length_cons]
      simp at ih ⊢
      omega

theorem parseLines_rt : ∀ (S : List CartLine), S ≠ [] →
    ∀ (rest : List Char) (fuel : Nat), S.length ≤ fuel →
      parseLines fuel (itemsTail S ++ rest) = some (S, rest) := by
  intro S
  induction S with
  | nil => intro h; exact absurd rfl h
  | cons l S' ih =>
    intro _ rest fuel hfuel
    obtain ⟨f, rfl⟩ : ∃ f, fuel = f + 1 := by
      cases fuel with
      | zero => simp at hfuel
      | succ f => exact ⟨f, rfl⟩
    cases S' with
    | nil =>
      have h1 : itemsTail [l] ++ rest = cartLineChars l ++ (']' :: rest) := by
        simp [itemsTail]
      rw [h1]
      unfold parseLines
      rw [parseCartLine_rt]
      simp only [someBind]
    | cons l' ls =>
      have h1 : itemsTail (l :: l' :: ls) ++ rest =
          cartLineChars l ++ (',' :: (itemsTail (l' :: ls) ++ rest)) := by
        simp [itemsTail]
      rw [h1]
      unfold parseLines
      rw [parseCartLine_rt]
      simp only [someBind]
      rw [ih (by simp) rest f (by simp at hfuel ⊢; omega)]
      simp only [someBind]

theorem parseArr_rt (S : List CartLine) :
    parseArr ('[' :: itemsTail S) = some (S, []) := by
  cases S with
  | nil => rfl
  | cons l S' =>
    obtain ⟨W, hW⟩ := itemsTail_cons l S'
    rw [hW]
    show parseLines ('{' :: W).length ('{' :: W) = some (l :: S', [])
    rw [← hW]
    have h := parseLines_rt (l :: S') (by simp) [] (itemsTail (l :: S')).length
      (by have := itemsTail_length (l :: S'); omega)
    rwa [List.append_nil] at h

/-- `JSON.parse` inverts `JSON.stringify` on every cart-line array: the
serialization the submission handlers write is read back exactly by the
history reader. -/
theorem parseItems_serializeItems (S : List CartLine) :
    parseItems (serializeItems S) = some S := by
  unfold parseItems serializeItems
  rw [show (String.mk ('[' :: itemsTail S)).toList = '[' :: itemsTail S from rfl,
    parseArr_rt]

/-! ## Claims about the credential gateway -/

/-- Claim C4: a request to any of the three authenticated endpoints with no
`Authorization` header is answered 401 with zero calls to the auth service
and zero calls to the store, and the store is unchanged. -/
theorem claim_C4 (getUser : String → Option String) (body : PedidosBody)
    (fbody : FinalizarBody) (store : List Pedido)
    (fstore : List PedidoFinalizado) (freshId now : Nat) :
    pedidosEndpoint getUser none body store freshId now = (⟨401, 0, 0⟩, store) ∧
    finalizarEndpoint getUser none fbody fstore freshId now = (⟨401, 0, 0⟩, fstore) ∧
    historyEndpoint getUser none store = (⟨401, 0, 0⟩, none) :=
  ⟨rfl, rfl, rfl⟩

theorem extractToken_noSecond (h : String)
    (hseg : (splitSp h.toList).get? 1 = none ∨ (splitSp h.toList).get? 1 = some []) :
    extractToken (some h) = none := by
  show (match (splitSp h.toList).get? 1 with
        | none => none
        | some t => if t = [] then none else some (String.mk t)) = none
  rcases hseg with h1 | h1 <;> (rw [h1]; try rfl)

/-- Claim C10: an `Authorization` header whose second space-separated
segment is missing or empty (a raw token with no scheme word, `"Bearer"`
alone, a trailing space) is treated exactly like a missing header:
401, no auth-service call, no store call. -/
theorem claim_C10 (getUser : String → Option String) (h : String)
    (body : PedidosBody) (fbody : FinalizarBody) (store : List Pedido)
    (fstore : List PedidoFinalizado) (freshId now : Nat)
    (hseg : (splitSp h.toList).get? 1 = none ∨ (splitSp h.toList).get? 1 = some []) :
    requireAuth getUser (some h) = requireAuth getUser none ∧
    pedidosEndpoint getUser (some h) body store freshId now = (⟨401, 0, 0⟩, store) ∧
    finalizarEndpoint getUser (some h) fbody fstore freshId now = (⟨401, 0, 0⟩, fstore) ∧
    historyEndpoint getUser (some h) store = (⟨401, 0, 0⟩, none) := by
  have he := extractToken_noSecond h hseg
  unfold pedidosEndpoint finalizarEndpoint historyEndpoint requireAuth
  rw [he]
  exact ⟨rfl, rfl, rfl, rfl⟩

theorem claim_C10_witness :
    ((splitSp ("Bearer".toList)).get? 1 = none ∨
      (splitSp ("Bearer".toList)).get? 1 = some []) ∧
    requireAuth (fun _ => some "u1") (some "Bearer") =
      requireAuth (fun _ => some "u1") none :=
  ⟨Or.inl (by decide),
   (claim_C10 (fun _ => some "u1") "Bearer" ⟨none, none, none, none⟩
     ⟨none, none, none, none, none, none, none, none⟩ [] [] 1 0
     (Or.inl (by decide))).1⟩

/-- Claim C7, counterexample to the claim as stated: the gateway does accept
a credential presented under a scheme word other than `Bearer` — the token
`abc123` is extracted from `Basic abc123` and exchanged with the auth
service (one call made). -/
theorem claim_C7_counterexample :
    extractToken (some "Basic abc123") = some "abc123" ∧
    (requireAuth (fun _ => none) (some "Basic abc123")).2 = 1 := by
  exact ⟨by decide, by decide⟩

/-- Claim C7, amended: the gateway ignores the scheme word entirely — its
behaviour is a function of the extracted second space-separated segment
only, so `Basic abc123` and `Bearer abc123` are processed identically
(and a raw token with no scheme word yields no token at all). -/
theorem claim_C7_amended :
    (∀ (getUser : String → Option String) (h₁ h₂ : String),
      extractToken (some h₁) = extractToken (some h₂) →
      requireAuth getUser (some h₁) = requireAuth getUser (some h₂)) ∧
    extractToken (some "Basic abc123") = some "abc123" ∧
    extractToken (some "Bearer abc123") = some "abc123" ∧
    extractToken (some "abc123") = none := by
  refine ⟨?_, by decide, by decide, by decide⟩
  intro g h₁ h₂ he
  unfold requireAuth
  rw [he]

theorem claim_C7_amended_witness :
    requireAuth (fun _ => some "u1") (some "Basic abc123") =
      requireAuth (fun _ => some "u1") (some "Bearer abc123") :=
  claim_C7_amended.1 (fun _ => some "u1") "Basic abc123" "Bearer abc123"
    (by decide)

/-! ## Claims about order submission -/

/-- Claim C1, divergence witness: a request with `items: []` — an empty
cart — passes validation in both handler variants, because an empty array
is truthy in JS (`![]` is `false`): the response is 201 and a row with
`items_json = "[]"` is inserted, where the spec demands 400 and no row. -/
theorem claim_C1_bug :
    postPedidos "u1" ⟨some [], some ⟨5, 0⟩, some ⟨[]⟩, none⟩ [] 1 0 =
      ⟨201, [⟨1, "u1", "[]", ⟨5, 0⟩, "Pendente",
             some (serializeDetails ⟨[]⟩), 0⟩], 1⟩ ∧
    postPedidosAlt "u1" ⟨some [], some ⟨5, 0⟩, some ⟨[]⟩, none⟩ [] 1 0 =
      ⟨201, [⟨1, "u1", "[]", ⟨5, 0⟩, "Pendente", none, 0⟩], 1⟩ := by
  exact ⟨by decide, by decide⟩

/-- Claim C2: every row either submission handler adds to the store carries
the authenticated identity as `user_id`, and the handlers are insensitive
to a client-supplied `user_id` body field: changing it changes nothing. -/
theorem claim_C2 :
    (∀ (uid : String) (body : PedidosBody) (store : List Pedido)
        (freshId now : Nat),
      (∀ r ∈ (postPedidos uid body store freshId now).store,
        r ∈ store ∨ r.user_id = uid) ∧
      (∀ x, postPedidos uid { body with user_id := x } store freshId now =
            postPedidos uid body store freshId now)) ∧
    (∀ (uid : String) (body : FinalizarBody) (store : List PedidoFinalizado)
        (freshId now : Nat),
      (∀ r ∈ (postFinalizar uid body store freshId now).store,
        r ∈ store ∨ r.user_id = uid) ∧
      (∀ x, postFinalizar uid { body with user_id := x } store freshId now =
            postFinalizar uid body store freshId now)) := by
  constructor
  · intro uid body store freshId now
    constructor
    · intro r hr
      unfold postPedidos at hr
      split at hr
      · split at hr
        · exact Or.inl hr
        · rcases List.mem_append.mp hr with hmem | hmem
          · exact Or.inl hmem
          · exact Or.inr (by rw [List.mem_singleton.mp hmem])
      · exact Or.inl hr
    · intro x; rfl
  · intro uid body store freshId now
    constructor
    · intro r hr
      unfold postFinalizar at hr
      split at hr
      · split at hr
        · exact Or.inl hr
        · rcases List.mem_append.mp hr with hmem | hmem
          · exact Or.inl hmem
          · exact Or.inr (by rw [List.mem_singleton.mp hmem])
      · exact Or.inl hr
    · intro x; rfl

theorem claim_C2_witness :
    (⟨1, "u1", "[]", ⟨5, 0⟩, "Pendente", some "\x7b\x7d", 0⟩ : Pedido) ∈
        ([] : List Pedido) ∨
      (⟨1, "u1", "[]", ⟨5, 0⟩, "Pendente", some "\x7b\x7d", 0⟩ : Pedido).user_id
        = "u1" :=
  (claim_C2.1 "u1" ⟨some [], some ⟨5, 0⟩, some ⟨[]⟩, some "spoofed"⟩ [] 1 0).1
    ⟨1, "u1", "[]", ⟨5, 0⟩, "Pendente", some "\x7b\x7d", 0⟩ (by decide)

/-! ## Claim about the menu reader -/

/-- Claim C9: on the spec's example menu, the endpoint groups `Bebidas`
items 1 and 3 (in id order) under `"Bebidas"` and the category-less item 2
under the sentinel `"Outros"`; the same grouping results when the rows are
stored in a different physical order, since the category-then-id sort
fixes the traversal order (and the endpoint is a pure function of the
rows, so repeated calls agree). -/
theorem claim_C9 :
    menuEndpoint [⟨1, "item1", some "Bebidas"⟩, ⟨2, "item2", none⟩,
                  ⟨3, "item3", some "Bebidas"⟩] =
      [("Bebidas", [⟨1, "item1", some "Bebidas"⟩, ⟨3, "item3", some "Bebidas"⟩]),
       ("Outros", [⟨2, "item2", none⟩])] ∧
    menuEndpoint [⟨3, "item3", some "Bebidas"⟩, ⟨2, "item2", none⟩,
                  ⟨1, "item1", some "Bebidas"⟩] =
      [("Bebidas", [⟨1, "item1", some "Bebidas"⟩, ⟨3, "item3", some "Bebidas"⟩]),
       ("Outros", [⟨2, "item2", none⟩])] := by
  exact ⟨by decide, by decide⟩

/-! ## Claims about the registration flow -/

/-- Claim C6, counterexample to the claim as stated: the `src/index.js`
catch block does not pass every upstream signup failure through verbatim —
an upstream message containing "Unable to validate email address" is
replaced by a fixed Portuguese message. -/
theorem claim_C6_counterexample :
    (registerFlow (.err "Unable to validate email address: invalid format")
        false (some "tok") (some "a@b.c") (some "secret123") (some "Nome")
        []).errorMsg =
      some "O e-mail informado é inválido. Verifique se está no formato correto." ∧
    (registerFlow (.err "Unable to validate email address: invalid format")
        false (some "tok") (some "a@b.c") (some "secret123") (some "Nome")
        []).errorMsg ≠
      some "Unable to validate email address: invalid format" := by
  exact ⟨by decide, by decide⟩

theorem registerFlow_err (msg : String) (pf : Bool) (tok : Option String)
    (email password nome : String) (profiles : List Profile)
    (hv : ¬(email = "" ∨ password = "" ∨ nome = "")) :
    registerFlow (.err msg) pf tok (some email) (some password) (some nome)
        profiles =
      if strContains msg "Unable to validate email address" then
        ⟨400,
         some "O e-mail informado é inválido. Verifique se está no formato correto.",
         none, profiles⟩
      else if strContains msg "invalid format" then
        ⟨400, some "Formato de e-mail inválido.", none, profiles⟩
      else
        ⟨400, some (if msg = "" then "Erro no processo de cadastro." else msg),
         none, profiles⟩ := by
  show (if email = "" ∨ password = "" ∨ nome = "" then
      (⟨400, some "Campos obrigatórios faltando.", none, profiles⟩ :
        RegisterResult)
    else if strContains msg "Unable to validate email address" then
      ⟨400,
       some "O e-mail informado é inválido. Verifique se está no formato correto.",
       none, profiles⟩
    else if strContains msg "invalid format" then
      ⟨400, some "Formato de e-mail inválido.", none, profiles⟩
    else
      ⟨400, some (if msg = "" then "Erro no processo de cadastro." else msg),
       none, profiles⟩) = _
  rw [if_neg hv]

/-- Claim C6, amended: a step-1 (signUp) failure always yields a 400 with no
token and leaves the profile table untouched (nothing was persisted, so
nothing needs rolling back); the upstream message is passed through
verbatim **unless** it contains "Unable to validate email address" or
"invalid format" (replaced by fixed Portuguese messages in
`src/index.js`) or is empty (replaced by a default). -/
theorem claim_C6_amended (msg : String) (pf : Bool) (tok : Option String)
    (email password nome : String) (profiles : List Profile)
    (hemail : email ≠ "") (hpw : password ≠ "") (hnome : nome ≠ "") :
    ((registerFlow (.err msg) pf tok (some email) (some password) (some nome)
        profiles).status = 400 ∧
     (registerFlow (.err msg) pf tok (some email) (some password) (some nome)
        profiles).profiles = profiles ∧
     (registerFlow (.err msg) pf tok (some email) (some password) (some nome)
        profiles).token = none) ∧
    (strContains msg "Unable to validate email address" = false →
     strContains msg "invalid format" = false → msg ≠ "" →
     (registerFlow (.err msg) pf tok (some email) (some password) (some nome)
        profiles).errorMsg = some msg) := by
  rw [registerFlow_err msg pf tok email password nome profiles
    (by simp [hemail, hpw, hnome])]
  constructor
  · split
    · exact ⟨rfl, rfl, rfl⟩
    · split
      · exact ⟨rfl, rfl, rfl⟩
      · exact ⟨rfl, rfl, rfl⟩
  · intro h1 h2 h3
    rw [if_neg (by rw [h1]; exact Bool.false_ne_true),
      if_neg (by rw [h2]; exact Bool.false_ne_true), if_neg h3]

theorem claim_C6_amended_witness :
    ((registerFlow (.err "User already registered") false (some "t")
        (some "a@b.c") (some "secret123") (some "Nome") []).status = 400 ∧
     (registerFlow (.err "User already registered") false (some "t")
        (some "a@b.c") (some "secret123") (some "Nome") []).profiles = [] ∧
     (registerFlow (.err "User already registered") false (some "t")
        (some "a@b.c") (some "secret123") (some "Nome") []).token = none) ∧
    (strContains "User already registered" "Unable to validate email address"
        = false →
     strContains "User already registered" "invalid format" = false →
     "User already registered" ≠ "" →
     (registerFlow (.err "User already registered") false (some "t")
        (some "a@b.c") (some "secret123") (some "Nome") []).errorMsg =
       some "User already registered") :=
  claim_C6_amended "User already registered" false (some "t") "a@b.c"
    "secret123" "Nome" [] (by decide) (by decide) (by decide)

/-! ## Claims about the order history reader -/

theorem forall₂_mem_right {α β : Type u} {R : α → β → Prop} :
    ∀ {xs : List α} {ys : List β}, List.Forall₂ R xs ys →
      ∀ y ∈ ys, ∃ x ∈ xs, R x y := by
  intro xs ys h
  induction h with
  | nil => intro y hy; cases hy
  | cons hr _ ih =>
    intro y hy
    rcases List.mem_cons.mp hy with rfl | hy'
    · exact ⟨_, by simp, hr⟩
    · obtain ⟨x, hx, hxy⟩ := ih y hy'
      exact ⟨x, by simp [hx], hxy⟩

theorem forall₂_mem_left {α β : Type u} {R : α → β → Prop} :
    ∀ {xs : List α} {ys : List β}, List.Forall₂ R xs ys →
      ∀ x ∈ xs, ∃ y ∈ ys, R x y := by
  intro xs ys h
  induction h with
  | nil => intro x hx; cases hx
  | cons hr _ ih =>
    intro x hx
    rcases List.mem_cons.mp hx with rfl | hx'
    · exact ⟨_, by simp, hr⟩
    · obtain ⟨y, hy, hxy⟩ := ih x hx'
      exact ⟨y, by simp [hy], hxy⟩

theorem forall₂_pairwise {α β : Type u} {R : α → β → Prop}
    {S : α → α → Prop} {T : β → β → Prop}
    (hco : ∀ a a' b b', R a b → R a' b' → S a a' → T b b') :
    ∀ {xs : List α} {ys : List β}, List.Forall₂ R xs ys →
      xs.Pairwise S → ys.Pairwise T := by
  intro xs ys h
  induction h with
  | nil => intro _; exact List.Pairwise.nil
  | cons hr htail ih =>
    intro hp
    rcases List.pairwise_cons.mp hp with ⟨hhead, htl⟩
    refine List.pairwise_cons.mpr ⟨?_, ih htl⟩
    intro b' hb'
    obtain ⟨a', ha', hra'⟩ := forall₂_mem_right htail b' hb'
    exact hco _ _ _ _ hr hra' (hhead a' ha')

/-- `formatPedidos` succeeds exactly when every row parses, and then the
output is the per-row view, in order. -/
theorem formatPedidos_ok :
    ∀ {rows : List Pedido} {l : List PedidoView}, formatPedidos rows = .ok l →
      List.Forall₂
        (fun p v => ∃ items, parseItems p.items_json = some items ∧
          v = selectView p items) rows l := by
  intro rows
  induction rows with
  | nil =>
    intro l h
    cases h
    exact List.Forall₂.nil
  | cons p ps ih =>
    intro l h
    unfold formatPedidos at h
    cases hp : parseItems p.items_json with
    | none => rw [hp] at h; cases h
    | some items =>
      rw [hp] at h
      cases hps : formatPedidos ps with
      | error e => rw [hps] at h; cases h
      | ok vs =>
        rw [hps] at h
        cases h
        exact List.Forall₂.cons ⟨items, hp, rfl⟩ (ih hps)

theorem formatPedidos_err :
    ∀ {rows : List Pedido}, (∃ p ∈ rows, parseItems p.items_json = none) →
      ∃ e, formatPedidos rows = .error e := by
  intro rows
  induction rows with
  | nil => intro ⟨p, hp, _⟩; cases hp
  | cons q qs ih =>
    intro ⟨p, hp, hnone⟩
    unfold formatPedidos
    cases hq : parseItems q.items_json with
    | none => exact ⟨_, rfl⟩
    | some items =>
      rcases List.mem_cons.mp hp with rfl | hp'
      · rw [hq] at hnone; cases hnone
      · obtain ⟨e, he⟩ := ih ⟨p, hp', hnone⟩
        rw [he]
        exact ⟨e, rfl⟩

theorem pedidosQuery_mem (store : List Pedido) (uid : String) :
    ∀ p ∈ pedidosQuery store uid, p ∈ store ∧ p.user_id = uid := by
  intro p hp
  unfold pedidosQuery at hp
  have hp' := (List.perm_insertionSort createdDesc _).mem_iff.mp hp
  have := List.mem_filter.mp hp'
  exact ⟨this.1, by simpa using this.2⟩

theorem pedidosQuery_sorted (store : List Pedido) (uid : String) :
    (pedidosQuery store uid).Pairwise createdDesc :=
  List.sorted_insertionSort createdDesc _

/-- Claim C3: whenever `GET /api/pedidos` succeeds for caller `uid`, every
returned order view comes from a store row owned by `uid` (no other
user's row is ever represented), and the sequence is sorted by
`created_at` descending (tie order is whatever the stable sort left). -/
theorem claim_C3 (uid : String) (store : List Pedido) (l : List PedidoView)
    (h : getPedidos uid store = .ok l) :
    (∀ v ∈ l, ∃ p ∈ store, p.user_id = uid ∧
      ∃ items, parseItems p.items_json = some items ∧ v = selectView p items) ∧
    l.Pairwise (fun a b => b.created_at ≤ a.created_at) := by
  have h' : formatPedidos (pedidosQuery store uid) = .ok l := h
  have hf := formatPedidos_ok h'
  constructor
  · intro v hv
    obtain ⟨p, hp, items, hparse, hview⟩ := forall₂_mem_right hf v hv
    obtain ⟨hmem, huid⟩ := pedidosQuery_mem store uid p hp
    exact ⟨p, hmem, huid, items, hparse, hview⟩
  · refine forall₂_pairwise ?_ hf (pedidosQuery_sorted store uid)
    intro a a' b b' hab hab' hS
    obtain ⟨i1, -, hb⟩ := hab
    obtain ⟨i2, -, hb'⟩ := hab'
    subst hb; subst hb'
    exact hS

theorem claim_C3_witness :
    (∀ v ∈ ([⟨3, ⟨9, 0⟩, "Pendente", 30, "[]", []⟩,
             ⟨1, ⟨5, 0⟩, "Pendente", 10, "[]", []⟩] : List PedidoView),
      ∃ p ∈ ([⟨1, "u1", "[]", ⟨5, 0⟩, "Pendente", none, 10⟩,
              ⟨2, "u2", "[]", ⟨7, 0⟩, "Pendente", none, 20⟩,
              ⟨3, "u1", "[]", ⟨9, 0⟩, "Pendente", none, 30⟩] : List Pedido),
        p.user_id = "u1" ∧
        ∃ items, parseItems p.items_json = some items ∧
          v = selectView p items) ∧
    ([⟨3, ⟨9, 0⟩, "Pendente", 30, "[]", []⟩,
      ⟨1, ⟨5, 0⟩, "Pendente", 10, "[]", []⟩] : List PedidoView).Pairwise
      (fun a b => b.created_at ≤ a.created_at) :=
  claim_C3 "u1"
    [⟨1, "u1", "[]", ⟨5, 0⟩, "Pendente", none, 10⟩,
     ⟨2, "u2", "[]", ⟨7, 0⟩, "Pendente", none, 20⟩,
     ⟨3, "u1", "[]", ⟨9, 0⟩, "Pendente", none, 30⟩]
    [⟨3, ⟨9, 0⟩, "Pendente", 30, "[]", []⟩,
     ⟨1, ⟨5, 0⟩, "Pendente", 10, "[]", []⟩] rfl

/-- Claim C5: if any of the caller's stored rows has an `items_json` that
does not deserialize, the whole history request fails (the thrown
`SyntaxError` aborts the `.map`): no list — partial or otherwise — is
produced, and the corrupt row is not skipped. -/
theorem claim_C5 (uid : String) (store : List Pedido)
    (h : ∃ p ∈ store, p.user_id = uid ∧ parseItems p.items_json = none) :
    ∃ e, getPedidos uid store = .error e := by
  obtain ⟨p, hmem, huid, hnone⟩ := h
  show ∃ e, formatPedidos (pedidosQuery store uid) = .error e
  apply formatPedidos_err
  refine ⟨p, ?_, hnone⟩
  unfold pedidosQuery
  rw [(List.perm_insertionSort createdDesc _).mem_iff]
  exact List.mem_filter.mpr ⟨hmem, by simp [huid]⟩

theorem claim_C5_witness :
    ∃ e, getPedidos "u1"
      [⟨1, "u1", "corrupted", ⟨5, 0⟩, "Pendente", none, 10⟩] = .error e :=
  claim_C5 "u1" [⟨1, "u1", "corrupted", ⟨5, 0⟩, "Pendente", none, 10⟩]
    ⟨⟨1, "u1", "corrupted", ⟨5, 0⟩, "Pendente", none, 10⟩,
     by decide, by decide, by decide⟩

/-- Claim C8: a valid submission stores the serialized cart; a subsequent
successful history read by the same user contains that order with the
item sequence deep-equal to the submitted one (deserialization inverts
the serialization) and the same total. -/
theorem claim_C8 (uid : String) (S : List CartLine) (T : JsNum)
    (d : DetailsObj) (cuid : Option String) (store : List Pedido)
    (freshId now : Nat) (l : List PedidoView)
    (hT : T.m ≠ 0)
    (hok : getPedidos uid
        (postPedidos uid ⟨some S, some T, some d, cuid⟩ store freshId now).store
      = .ok l) :
    (postPedidos uid ⟨some S, some T, some d, cuid⟩ store freshId now).status
      = 201 ∧
    ∃ v ∈ l, v.id = freshId ∧ v.items = S ∧ v.total = T := by
  have hred : postPedidos uid ⟨some S, some T, some d, cuid⟩ store freshId now =
      ⟨201, store ++ [⟨freshId, uid, serializeItems S, T, "Pendente",
        some (serializeDetails d), now⟩], 1⟩ := by
    show (if T.m = 0 then (⟨400, store, 0⟩ : WriteResult)
      else ⟨201, store ++ [⟨freshId, uid, serializeItems S, T, "Pendente",
        some (serializeDetails d), now⟩], 1⟩) = _
    rw [if_neg hT]
  rw [hred] at hok
  refine ⟨by rw [hred], ?_⟩
  have hrow : (⟨freshId, uid, serializeItems S, T, "Pendente",
      some (serializeDetails d), now⟩ : Pedido) ∈
      pedidosQuery (store ++ [⟨freshId, uid, serializeItems S, T, "Pendente",
        some (serializeDetails d), now⟩]) uid := by
    unfold pedidosQuery
    rw [(List.perm_insertionSort createdDesc _).mem_iff]
    exact List.mem_filter.mpr ⟨by simp, by simp⟩
  have h' : formatPedidos (pedidosQuery (store ++
      [⟨freshId, uid, serializeItems S, T, "Pendente",
        some (serializeDetails d), now⟩]) uid) = .ok l := hok
  have hf := formatPedidos_ok h'
  obtain ⟨v, hv, items, hparse, hview⟩ := forall₂_mem_left hf _ hrow
  have hS : items = S := by
    have : parseItems (serializeItems S) = some items := hparse
    rw [parseItems_serializeItems] at this
    exact (Option.some.inj this).symm
  subst hS
  exact ⟨v, hv, by rw [hview]; exact ⟨rfl, rfl, rfl⟩⟩

theorem claim_C8_witness :
    (postPedidos "u1" ⟨some [⟨⟨1, 0⟩, ⟨2, 0⟩, ⟨5, 0⟩⟩], some ⟨10, 0⟩,
        some ⟨[]⟩, none⟩ [] 1 5).status = 201 ∧
    ∃ v ∈ ([⟨1, ⟨10, 0⟩, "Pendente", 5,
             serializeItems [⟨⟨1, 0⟩, ⟨2, 0⟩, ⟨5, 0⟩⟩],
             [⟨⟨1, 0⟩, ⟨2, 0⟩, ⟨5, 0⟩⟩]⟩] : List PedidoView),
      v.id = 1 ∧ v.items = [⟨⟨1, 0⟩, ⟨2, 0⟩, ⟨5, 0⟩⟩] ∧ v.total = ⟨10, 0⟩ :=
  claim_C8 "u1" [⟨⟨1, 0⟩, ⟨2, 0⟩, ⟨5, 0⟩⟩] ⟨10, 0⟩ ⟨[]⟩ none [] 1 5
    [⟨1, ⟨10, 0⟩, "Pendente", 5, serializeItems [⟨⟨1, 0⟩, ⟨2, 0⟩, ⟨5, 0⟩⟩],
      [⟨⟨1, 0⟩, ⟨2, 0⟩, ⟨5, 0⟩⟩]⟩] (by decide) rfl
